import Mathlib

/-
Verification of the feature-engineering pipeline in src/utils/preprocess.py
(class FeatureEngineeringCLI).  The pipeline turns per-domain telemetry records
into a numeric feature matrix and integer labels, in two modes: training/batch
(one_line_processing = False) and serving (one_line_processing = True, a single
record).

Modelling conventions used throughout this file:
 * pandas DataFrames are modelled column-major: a named list of typed columns
   (ColData), where a missing numeric/object cell (NaN / None) is `none`.
 * Python floats are idealised as exact rationals (every float is a rational);
   statistics whose exact value is irrational (standard deviations, which need
   a square root) are stated at the level of real numbers, with the executable
   pipeline deciding the associated comparisons by an equivalent squared test
   proved equal to the source formula (see dropStat_iff below).
 * Python exceptions are an explicit error type (Err) in an Except monad.
 * Core String functions (String.startsWith, String.splitOn) are not
   kernel-reducible in this toolchain, so Python str.startswith / str.split
   are re-implemented structurally on String.data.
-/

namespace Preprocess

/-- Python exceptions raised (or hit) by the source. `valueError` carries the
message of an explicit `raise ValueError(...)`; `attributeError` models attribute
access on a value of the wrong type (e.g. `None.transform(...)` when no scaler was
loaded, or `float.startswith`); `indexError` models indexing a list past its end
(`label.split(":")[1]` for a label without a colon); `keyError` a missing dataframe
column; `typeError` an unordered comparison between a string column and a float. -/
inductive Err
  | valueError (msg : String)
  | attributeError (msg : String)
  | indexError
  | keyError
  | typeError
deriving DecidableEq

/-- Python str.startswith on explicit character lists. -/
def startsWithL : List Char → List Char → Bool
  | _, [] => true
  | [], _ :: _ => false
  | c :: s, p :: ps => if c = p then startsWithL s ps else false

/-- Python s.startswith(p). -/
def pyStartsWith (s p : String) : Bool := startsWithL s.data p.data

/-- Python len(s.split(":")) >= 2, i.e. the label contains at least one colon, so
that label.split(":")[1] exists. -/
def containsColon (s : String) : Bool := s.data.any (fun c => c = ':')

/-- Python s.split(":") on a character list. -/
def splitOnColonL : List Char → List (List Char)
  | [] => [[]]
  | c :: rest =>
    let r := splitOnColonL rest
    if c = ':' then [] :: r
    else
      match r with
      | [] => [[c]]
      | g :: gs => (c :: g) :: gs

/-- Python label.split(":")[0] + ":" + label.split(":")[1]; `none` when the second
segment does not exist (the source raises IndexError there). -/
def cleanTwo (s : String) : Option String :=
  match splitOnColonL s.data with
  | a :: b :: _ => some (String.mk (a ++ ':' :: b))
  | _ => none

/-- Dict lookup on an association list kept in Python-dict insertion order
(dict.get k): first matching key wins; keys inserted by the class-map builders
are distinct, so this matches dict semantics. -/
def lookupStr {β : Type} : List (String × β) → String → Option β
  | [], _ => none
  | (k, v) :: t, s => if k = s then some v else lookupStr t s

/-- Binary labeling policy entry for one distinct label (perform_eda lines
446-452): prefix "benign" maps to class 0, prefix "dga" to class 1, any other
prefix yields no class-map entry. -/
def binaryEntry (l : String) : Option (String × ℤ) :=
  if pyStartsWith l "benign" then some (l, 0)
  else if pyStartsWith l "dga" then some (l, 1)
  else none

/-- Generic labeling policy entry for one distinct label (perform_eda lines
466-475): "benign" maps to 0; "malware", "misp", "phishing" map to 1; anything
else gets no entry. -/
def genericEntry (l : String) : Option (String × ℤ) :=
  if pyStartsWith l "benign" then some (l, 0)
  else if pyStartsWith l "malware" then some (l, 1)
  else if pyStartsWith l "misp" then some (l, 1)
  else if pyStartsWith l "phishing" then some (l, 1)
  else none

/-- Generic-policy class map built over the distinct labels in order (the Python
for-loop inserts one dict entry per matching label). -/
def class_map_generic (uniqueLabels : List String) : List (String × ℤ) :=
  uniqueLabels.filterMap genericEntry

/-- Binary-policy class map (perform_eda lines 446-452).  The first statement of
the loop body is the dead assignment
cleaned_labels = [label.split(":")[0] + ":" + label.split(":")[1] for label in unique_labels],
which raises IndexError as soon as any distinct label contains no colon; with an
empty label list the loop body never runs, so nothing is raised. -/
def class_map_binary (uniqueLabels : List String) : Except Err (List (String × ℤ)) :=
  if uniqueLabels.isEmpty then .ok []
  else if uniqueLabels.all containsColon then .ok (uniqueLabels.filterMap binaryEntry)
  else .error .indexError

/-- Inversion of the externally supplied dga class map, as in
inverse_dga_class_map = {v: k for k, v in dga_class_map.items()}: for duplicate
values the later pair wins, hence the reversed scan.  dga_mapping is an external
collaborator module; the map is a parameter here. -/
def invLookup (dgaMap : List (ℤ × String)) (name : String) : Option ℤ :=
  (dgaMap.reverse.find? (fun p => p.2 = name)).map (fun p => p.1)

/-- Multiclass labeling policy entry (perform_eda lines 456-460): the label is
normalised to its first two colon segments and looked up in the inverted dga map. -/
def multiclassEntry (dgaMap : List (ℤ × String)) (l : String) : Option (String × ℤ) :=
  match cleanTwo l with
  | some cl => (invLookup dgaMap cl).map (fun k => (l, k))
  | none => none

/-- Multiclass-policy class map (perform_eda lines 455-462); the cleaned_labels
comprehension on line 457 raises IndexError when a label has no colon. -/
def class_map_multiclass (dgaMap : List (ℤ × String)) (uniqueLabels : List String) :
    Except Err (List (String × ℤ)) :=
  if uniqueLabels.all containsColon then .ok (uniqueLabels.filterMap (multiclassEntry dgaMap))
  else .error .indexError

/-- Line 479: labels = combined_df["label"].apply(lambda x: class_map.get(x, -1)).
Unmapped labels become the sentinel -1; no row is dropped. -/
def encodeLabels (cmap : List (String × ℤ)) (labelCol : List String) : List ℤ :=
  labelCol.map (fun x => (lookupStr cmap x).getD (-1))

theorem startsWithL_cons {s : List Char} {p : Char} {ps : List Char}
    (h : startsWithL s (p :: ps) = true) : ∃ t, s = p :: t ∧ startsWithL t ps = true := by
  cases s with
  | nil => simp [startsWithL] at h
  | cons c t =>
    by_cases hc : c = p
    · subst hc
      exact ⟨t, rfl, by simpa [startsWithL] using h⟩
    · simp [startsWithL, hc] at h

/-- Two prefixes of the same string are comparable: one is a prefix of the other. -/
theorem startsWithL_total : ∀ {s a b : List Char},
    startsWithL s a = true → startsWithL s b = true →
    startsWithL a b = true ∨ startsWithL b a = true := by
  intro s
  induction s with
  | nil =>
    intro a b ha hb
    cases a with
    | nil => right; cases b <;> simp [startsWithL]
    | cons x xs => simp [startsWithL] at ha
  | cons c t ih =>
    intro a b ha hb
    cases a with
    | nil => right; cases b <;> simp [startsWithL]
    | cons x xs =>
      cases b with
      | nil => left; simp [startsWithL]
      | cons y ys =>
        by_cases hcx : c = x
        · by_cases hcy : c = y
          · subst hcx
            subst hcy
            have ha' : startsWithL t xs = true := by simpa [startsWithL] using ha
            have hb' : startsWithL t ys = true := by simpa [startsWithL] using hb
            rcases ih ha' hb' with h | h
            · left; simpa [startsWithL] using h
            · right; simpa [startsWithL] using h
          · simp [startsWithL, hcy] at hb
        · simp [startsWithL, hcx] at ha

/-- If a string starts with p, and neither of p, q is a prefix of the other, then
it does not start with q.  Used to show the branches of genericEntry are mutually
exclusive on the concrete prefixes "benign", "malware", "misp", "phishing". -/
theorem pyStartsWith_false_of_incomp {l p q : String}
    (hp : pyStartsWith l p = true)
    (h1 : startsWithL p.data q.data = false) (h2 : startsWithL q.data p.data = false) :
    pyStartsWith l q = false := by
  cases hv : pyStartsWith l q with
  | false => rfl
  | true =>
    rcases startsWithL_total hp hv with hc | hc
    · rw [h1] at hc; exact absurd hc (by simp)
    · rw [h2] at hc; exact absurd hc (by simp)

theorem lookupStr_filterMap_not_mem {f : String → Option (String × ℤ)}
    (hf : ∀ l p, f l = some p → p.1 = l) :
    ∀ (ls : List String) (l : String), l ∉ ls → lookupStr (ls.filterMap f) l = none := by
  intro ls
  induction ls with
  | nil => intro l _; rfl
  | cons a t ih =>
    intro l hl
    have hla : l ≠ a := fun h => hl (h ▸ List.mem_cons_self a t)
    have hlt : l ∉ t := fun h => hl (List.mem_cons_of_mem a h)
    rw [List.filterMap_cons]
    cases h : f a with
    | none => exact ih l hlt
    | some p =>
      have hkey : p.1 = a := hf a p h
      simp only [lookupStr]
      rw [if_neg (by rw [hkey]; exact fun hh => hla hh.symm)]
      exact ih l hlt

theorem lookupStr_filterMap_mem {f : String → Option (String × ℤ)}
    (hf : ∀ l p, f l = some p → p.1 = l) :
    ∀ (ls : List String) (l : String), l ∈ ls →
      lookupStr (ls.filterMap f) l = (f l).map (fun p => p.2) := by
  intro ls
  induction ls with
  | nil => intro l hl; simp at hl
  | cons a t ih =>
    intro l hl
    by_cases hfa : ∃ p, f a = some p
    · obtain ⟨p, hp⟩ := hfa
      have hkey : p.1 = a := hf a p hp
      rw [List.filterMap_cons, hp]
      by_cases hla : l = a
      · subst hla
        simp [lookupStr, hkey, hp]
      · have hlt : l ∈ t := by
          rcases List.mem_cons.mp hl with h | h
          · exact absurd h hla
          · exact h
        have : p.1 = l ↔ False := by
          constructor
          · intro h; exact hla (h ▸ hkey.symm ▸ rfl)
          · intro h; exact h.elim
        simp only [lookupStr]
        rw [if_neg (by rw [hkey]; exact fun h => hla h.symm)]
        exact ih l hlt
    · have hfa' : f a = none := by
        cases h : f a with
        | none => rfl
        | some p => exact absurd ⟨p, h⟩ hfa
      rw [List.filterMap_cons, hfa']
      by_cases hla : l = a
      · subst hla
        by_cases hlt : l ∈ t
        · rw [ih l hlt]
        · rw [lookupStr_filterMap_not_mem hf t l hlt, hfa']
          rfl
      · have hlt : l ∈ t := by
          rcases List.mem_cons.mp hl with h | h
          · exact absurd h hla
          · exact h
        exact ih l hlt

theorem binaryEntry_key : ∀ l p, binaryEntry l = some p → p.1 = l := by
  intro l p h
  unfold binaryEntry at h
  split at h
  · cases h; rfl
  · split at h
    · cases h; rfl
    · cases h

theorem genericEntry_key : ∀ l p, genericEntry l = some p → p.1 = l := by
  intro l p h
  unfold genericEntry at h
  split at h
  · cases h; rfl
  · split at h
    · cases h; rfl
    · split at h
      · cases h; rfl
      · split at h
        · cases h; rfl
        · cases h

end Preprocess

deriving instance DecidableEq for Except

namespace Preprocess

/-- C6 counterexample: the claim quantifies over every set of distinct label
strings, but under the binary labeling policy the single distinct label "benign"
(which starts with "benign" yet contains no colon) never receives a class-map
entry: the dead assignment cleaned_labels = [label.split(":")[0] + ":" +
label.split(":")[1] ...] inside the loop (line 448) raises IndexError first, so
no class map is produced at all. -/
theorem C6_counterexample : class_map_binary ["benign"] = .error .indexError := by
  decide

/-- C6 (amended): under the binary labeling policy, for every set of distinct
label strings each containing at least one colon (so that the dead
cleaned_labels comprehension on line 448 does not raise IndexError), the class
map assigns 0 to every label whose string starts with "benign", 1 to every label
whose string starts with "dga", and no entry to any other label; in particular
the labels ["benign:example", "dga:foo"] produce the class map
{"benign:example": 0, "dga:foo": 1}. -/
theorem C6_binary_class_map (ls : List String)
    (hcolon : ∀ l ∈ ls, containsColon l = true) :
    class_map_binary ls = .ok (ls.filterMap binaryEntry) ∧
    (∀ l ∈ ls,
      (pyStartsWith l "benign" = true →
        lookupStr (ls.filterMap binaryEntry) l = some 0) ∧
      (pyStartsWith l "dga" = true →
        lookupStr (ls.filterMap binaryEntry) l = some 1) ∧
      (pyStartsWith l "benign" = false → pyStartsWith l "dga" = false →
        lookupStr (ls.filterMap binaryEntry) l = none)) ∧
    class_map_binary ["benign:example", "dga:foo"] =
      .ok [("benign:example", 0), ("dga:foo", 1)] := by
  refine ⟨?_, ?_, by decide⟩
  · unfold class_map_binary
    cases ls with
    | nil => rfl
    | cons a t =>
      rw [if_neg (by simp)]
      rw [if_pos (List.all_eq_true.mpr (fun x hx => hcolon x hx))]
  · intro l hl
    have hkey := lookupStr_filterMap_mem binaryEntry_key ls l hl
    refine ⟨fun hb => ?_, fun hd => ?_, fun hb hd => ?_⟩
    · rw [hkey]; simp [binaryEntry, hb]
    · have hb : pyStartsWith l "benign" = false :=
        pyStartsWith_false_of_incomp hd (by decide) (by decide)
      rw [hkey]; simp [binaryEntry, hb, hd]
    · rw [hkey]; simp [binaryEntry, hb, hd]

/-- C6 witness: the amended theorem applied to the concrete label set of
Scenario A. -/
theorem C6_binary_class_map_witness :
    lookupStr (["benign:example", "dga:foo"].filterMap binaryEntry) "benign:example" =
      some 0 :=
  ((C6_binary_class_map ["benign:example", "dga:foo"] (by decide)).2.1
    "benign:example" (by decide)).1 (by decide)

/-- C7: under the generic labeling policy every label starting with "benign" maps
to class 0, every label starting with "malware", "misp" or "phishing" maps to
class 1, and every other label receives no class-map entry; applying the class
map to the label column (line 479) keeps one entry per row (no row is dropped)
and assigns the sentinel -1 to unmapped labels; in particular
"unknown_source:x" gets no entry and encodes to -1 while its row is retained. -/
theorem C7_generic_labels (ls : List String) :
    (∀ l ∈ ls,
      (pyStartsWith l "benign" = true → lookupStr (class_map_generic ls) l = some 0) ∧
      ((pyStartsWith l "malware" = true ∨ pyStartsWith l "misp" = true ∨
          pyStartsWith l "phishing" = true) →
        lookupStr (class_map_generic ls) l = some 1) ∧
      (pyStartsWith l "benign" = false → pyStartsWith l "malware" = false →
       pyStartsWith l "misp" = false → pyStartsWith l "phishing" = false →
        lookupStr (class_map_generic ls) l = none)) ∧
    (∀ (cmap : List (String × ℤ)) (labelCol : List String),
      (encodeLabels cmap labelCol).length = labelCol.length ∧
      (∀ (i : ℕ) (x : String), labelCol[i]? = some x → lookupStr cmap x = none →
        (encodeLabels cmap labelCol)[i]? = some (-1))) ∧
    class_map_generic ["unknown_source:x"] = [] ∧
    encodeLabels (class_map_generic ["unknown_source:x"]) ["unknown_source:x"] = [-1] := by
  refine ⟨?_, ?_, by decide, by decide⟩
  · intro l hl
    have hkey := lookupStr_filterMap_mem genericEntry_key ls l hl
    rw [class_map_generic, hkey]
    refine ⟨fun hb => by simp [genericEntry, hb], fun h1 => ?_, fun h1 h2 h3 h4 => ?_⟩
    · rcases h1 with hm | hm | hm
      · have hb : pyStartsWith l "benign" = false :=
          pyStartsWith_false_of_incomp hm (by decide) (by decide)
        simp [genericEntry, hb, hm]
      · have hb : pyStartsWith l "benign" = false :=
          pyStartsWith_false_of_incomp hm (by decide) (by decide)
        have hmal : pyStartsWith l "malware" = false :=
          pyStartsWith_false_of_incomp hm (by decide) (by decide)
        simp [genericEntry, hb, hmal, hm]
      · have hb : pyStartsWith l "benign" = false :=
          pyStartsWith_false_of_incomp hm (by decide) (by decide)
        have hmal : pyStartsWith l "malware" = false :=
          pyStartsWith_false_of_incomp hm (by decide) (by decide)
        have hmisp : pyStartsWith l "misp" = false :=
          pyStartsWith_false_of_incomp hm (by decide) (by decide)
        simp [genericEntry, hb, hmal, hmisp, hm]
    · simp [genericEntry, h1, h2, h3, h4]
  · intro cmap labelCol
    refine ⟨by simp [encodeLabels], fun i x hx hnone => ?_⟩
    simp [encodeLabels, hx, hnone]

/-- C7 witness: the theorem applied to the concrete labels of Scenario E plus a
mapped one. -/
theorem C7_generic_labels_witness :
    lookupStr (class_map_generic ["malware:x", "unknown_source:x"]) "malware:x" = some 1 :=
  ((C7_generic_labels ["malware:x", "unknown_source:x"]).1 "malware:x"
    (by decide)).2.1 (Or.inl (by decide))

/-- A pandas column: a dtype tag plus the cells, one per row.  `none` in a
numeric or object column is a missing value (NaN / None).  Timedeltas are kept
as seconds, datetimes as integer nanoseconds (pandas datetime64[ns]). -/
inductive ColData
  | nums  (vs : List (Option ℚ))
  | strs  (vs : List (Option String))
  | bools (vs : List Bool)
  | durs  (vs : List ℚ)
  | times (vs : List ℤ)
deriving DecidableEq

/-- A pandas DataFrame, column-major: named columns in order.  Row i of the
frame is the i-th entry of every column. -/
abbrev DFrame := List (String × ColData)

/-- One cell of the single-record input dict (serving mode). -/
inductive CellV
  | q (v : ℚ)
  | s (v : String)
  | b (v : Bool)
deriving DecidableEq

/-- The persisted artifacts of the Border Store (models/scaler.joblib,
models/outliers.joblib, models/decision_tree_model.joblib): a fitted numeric
scaler as per-column (center, scale) pairs applied as (x - center)/scale, the
per-column outlier thresholds (lower, upper), and the fitted categorical
decision-tree pipeline abstracted as its prediction function (categorical cells
of the record to a class-1 probability).  `none` means the artifact file is
absent. -/
structure Store where
  scaler : Option (List (ℝ × ℝ))
  outliers : Option (List (String × ℚ × ℚ))
  model : Option (List CellV → ℚ)

def ColData.length : ColData → ℕ
  | .nums vs => vs.length
  | .strs vs => vs.length
  | .bools vs => vs.length
  | .durs vs => vs.length
  | .times vs => vs.length

/-- Keep the rows of a list whose position in the keep-mask holds true
(row-subset selection, as performed by DataFrame.drop of the complement). -/
def maskFilter {β : Type} : List Bool → List β → List β
  | true :: m, x :: xs => x :: maskFilter m xs
  | false :: m, _ :: xs => maskFilter m xs
  | _, _ => []

def ColData.filterRows (keep : List Bool) : ColData → ColData
  | .nums vs => .nums (maskFilter keep vs)
  | .strs vs => .strs (maskFilter keep vs)
  | .bools vs => .bools (maskFilter keep vs)
  | .durs vs => .durs (maskFilter keep vs)
  | .times vs => .times (maskFilter keep vs)

/-- Drop the same rows from every column of the frame (features.drop(outlier_indices)). -/
def filterRowsDF (keep : List Bool) (f : DFrame) : DFrame :=
  f.map (fun p => (p.1, p.2.filterRows keep))

/-- The same column with all rows removed. -/
def ColData.emptied : ColData → ColData
  | .nums _ => .nums []
  | .strs _ => .strs []
  | .bools _ => .bools []
  | .durs _ => .durs []
  | .times _ => .times []

/-- The frame with every row dropped: the column structure (names and dtypes)
survives, the data is gone. -/
def emptiedDF (f : DFrame) : DFrame := f.map (fun p => (p.1, p.2.emptied))

/-- The cells of the (first) column named c when it is numeric, else []. -/
def numCells (f : DFrame) (c : String) : List (Option ℚ) :=
  match lookupStr f c with
  | some (.nums vs) => vs
  | _ => []

/-- True when applying a float bound to column c cannot raise TypeError: the
column is numeric or absent. -/
def boundColOk (f : DFrame) (c : String) : Bool :=
  match lookupStr f c with
  | none => true
  | some (.nums _) => true
  | some _ => false

/-- One pass of the outlier-removal loop (remove_outliers lines 291-304) for a
single thresholds entry: rows of the named column whose cell satisfies the drop
condition are removed from the features and, by the same index set, from the
labels; an entry whose column is absent is skipped (`if column in
features.columns`); comparing a non-numeric pandas column against a float bound
raises TypeError. -/
def boundStep {β γ : Type} (dropCell : β → Option ℚ → Bool)
    (acc : DFrame × List γ) (b : String × β) : Except Err (DFrame × List γ) :=
  match lookupStr acc.1 b.1 with
  | none => .ok acc
  | some (.nums vs) =>
      let keep := vs.map (fun o => ! dropCell b.2 o)
      .ok (filterRowsDF keep acc.1, maskFilter keep acc.2)
  | some _ => .error .typeError

/-- The full outlier-removal loop over the thresholds dict, in insertion order. -/
def boundLoop {β γ : Type} (dropCell : β → Option ℚ → Bool) :
    List (String × β) → DFrame × List γ → Except Err (DFrame × List γ)
  | [], acc => .ok acc
  | b :: t, acc =>
    match boundStep dropCell acc b with
    | .ok acc' => boundLoop dropCell t acc'
    | .error e => .error e

/-- Drop condition with persisted (lower, upper) thresholds (serving):
(features[column] < lower_bound) | (features[column] > upper_bound).  A NaN
cell compares false on both sides and is kept. -/
def dropBound : ℚ × ℚ → Option ℚ → Bool
  | _, none => false
  | (lo, hi), some v => decide (v < lo) || decide (hi < v)

/-- remove_outliers with one_line_processing = True (lines 277-307): load_borders
loads the persisted thresholds; `if not self.outliers:` raises ValueError when the
artifact is absent or the dict is empty; then the drop loop runs with the loaded
(lower, upper) pairs (persisted floats are exact rationals). -/
def remove_outliers_serve {γ : Type} (st : Store) (features : DFrame) (labels : List γ) :
    Except Err (DFrame × List γ) :=
  match st.outliers with
  | none => .error (.valueError "Outlier thresholds must be available for outlier removal.")
  | some bs =>
    if bs.isEmpty then
      .error (.valueError "Outlier thresholds must be available for outlier removal.")
    else boundLoop dropBound bs (features, labels)

/-- The present (non-missing) values of a column, in order (pandas skipna). -/
def dropNone : List (Option ℚ) → List ℚ
  | [] => []
  | none :: t => dropNone t
  | some v :: t => v :: dropNone t

/-- Mean of a column, skipping missing values (pandas Series.mean).  An all-NaN
or empty column gives NaN in pandas; here the Lean convention 0/0 = 0 applies,
and the resulting bound keeps every row just as NaN bounds do. -/
def colMeanQ (vs : List (Option ℚ)) : ℚ :=
  (dropNone vs).sum / (dropNone vs).length

/-- Sample variance of a column (pandas Series.std uses ddof = 1; the std itself
is the square root of this).  For a column with fewer than two present values
pandas yields NaN; here 0/0 = 0, and the collapsed bound keeps every present
row just as the NaN bound does. -/
def colVarQ (vs : List (Option ℚ)) : ℚ :=
  ((dropNone vs).map (fun x => (x - colMeanQ vs) ^ 2)).sum /
    (((dropNone vs).length : ℚ) - 1)

/-- Training-mode per-column statistics, in column order (remove_outliers lines
280-282 computes {column: (mean - k*std, mean + k*std)} over the numeric
columns); the pair kept here is (mean, sample variance), from which the stored
bounds are realLower/realUpper. -/
def trainStats (f : DFrame) : List (String × ℚ × ℚ) :=
  f.filterMap (fun p =>
    match p.2 with
    | .nums vs => some (p.1, colMeanQ vs, colVarQ vs)
    | _ => none)

/-- The lower bound mean - k*std the source computes, std being the square root
of the sample variance. -/
noncomputable def realLower (k m v : ℚ) : ℝ := (m : ℝ) - (k : ℝ) * Real.sqrt (v : ℝ)

/-- The upper bound mean + k*std the source computes. -/
noncomputable def realUpper (k m v : ℚ) : ℝ := (m : ℝ) + (k : ℝ) * Real.sqrt (v : ℝ)

/-- Executable drop test for training-computed bounds: (v - m)^2 > k^2 * var.
For k ≥ 0 this decides exactly the source comparison v < mean - k*std or
v > mean + k*std (theorem dropStat_iff), without computing the square root. -/
def dropStat (k : ℚ) : ℚ × ℚ → Option ℚ → Bool
  | _, none => false
  | (m, var), some v => decide (k ^ 2 * var < (v - m) ^ 2)

/-- remove_outliers with one_line_processing = False (lines 277-307): compute the
per-numeric-column thresholds over the current table, then run the same drop
loop with them (std_multiplier defaults to 8; perform_eda passes 8).  With no
numeric column the computed dict is empty and `if not self.outliers:` raises. -/
def remove_outliers_train {γ : Type} (k : ℚ) (features : DFrame) (labels : List γ) :
    Except Err (List (String × ℚ × ℚ) × DFrame × List γ) :=
  if (trainStats features).isEmpty then
    .error (.valueError "Outlier thresholds must be available for outlier removal.")
  else
    match boundLoop (dropStat k) (trainStats features) (features, labels) with
    | .ok (f, l) => .ok (trainStats features, f, l)
    | .error e => .error e

theorem maskFilter_mem {β : Type} {x : β} :
    ∀ {m : List Bool} {xs : List β}, x ∈ maskFilter m xs → x ∈ xs := by
  intro m
  induction m with
  | nil => intro xs h; simp [maskFilter] at h
  | cons b t ih =>
    intro xs h
    cases xs with
    | nil => cases b <;> simp [maskFilter] at h
    | cons y ys =>
      cases b with
      | true =>
        rcases List.mem_cons.mp h with h | h
        · exact h ▸ List.mem_cons_self y ys
        · exact List.mem_cons_of_mem y (ih h)
      | false => exact List.mem_cons_of_mem y (ih h)

theorem maskFilter_map_self {β : Type} (p : β → Bool) :
    ∀ (xs : List β), maskFilter (xs.map p) xs = xs.filter p := by
  intro xs
  induction xs with
  | nil => rfl
  | cons y ys ih =>
    cases hp : p y with
    | true => simp [maskFilter, List.filter, hp, ih]
    | false => simp [maskFilter, List.filter, hp, ih]

theorem maskFilter_nil {β : Type} : ∀ (m : List Bool), maskFilter m ([] : List β) = [] := by
  intro m
  cases m with
  | nil => rfl
  | cons b t => cases b <;> rfl

theorem maskFilter_all_true {β : Type} :
    ∀ (m : List Bool) (xs : List β), (∀ b ∈ m, b = true) → xs.length ≤ m.length →
      maskFilter m xs = xs := by
  intro m
  induction m with
  | nil =>
    intro xs _ hlen
    cases xs with
    | nil => rfl
    | cons y ys => simp at hlen
  | cons b t ih =>
    intro xs hall hlen
    have hb : b = true := hall b (List.mem_cons_self b t)
    subst hb
    cases xs with
    | nil => rfl
    | cons y ys =>
      have : maskFilter t ys = ys :=
        ih ys (fun c hc => hall c (List.mem_cons_of_mem _ hc)) (by simpa using hlen)
      simp [maskFilter, this]

theorem lookupStr_map_snd {β₁ β₂ : Type} (g : β₁ → β₂) :
    ∀ (f : List (String × β₁)) (c : String),
      lookupStr (f.map (fun p => (p.1, g p.2))) c = (lookupStr f c).map g := by
  intro f
  induction f with
  | nil => intro c; rfl
  | cons p t ih =>
    intro c
    by_cases h : p.1 = c
    · simp [lookupStr, h]
    · simp [lookupStr, h, ih]

theorem lookupStr_mem {β : Type} :
    ∀ {f : List (String × β)} {c : String} {cd : β}, lookupStr f c = some cd → (c, cd) ∈ f := by
  intro f
  induction f with
  | nil => intro c cd h; cases h
  | cons p t ih =>
    intro c cd h
    by_cases hp : p.1 = c
    · simp only [lookupStr, if_pos hp] at h
      cases h
      subst hp
      exact List.mem_cons_self _ _
    · simp only [lookupStr, if_neg hp] at h
      exact List.mem_cons_of_mem p (ih h)

theorem numCells_filterRowsDF (keep : List Bool) (f : DFrame) (c : String) :
    numCells (filterRowsDF keep f) c = maskFilter keep (numCells f c) := by
  unfold numCells filterRowsDF
  rw [lookupStr_map_snd]
  cases h : lookupStr f c with
  | none => simp [maskFilter_nil]
  | some cd => cases cd <;> simp [ColData.filterRows, maskFilter_nil]

theorem boundStep_mono {β γ : Type} {d : β → Option ℚ → Bool}
    {acc acc' : DFrame × List γ} {b : String × β}
    (h : boundStep d acc b = .ok acc') (c : String) (x : Option ℚ)
    (hx : x ∈ numCells acc'.1 c) : x ∈ numCells acc.1 c := by
  unfold boundStep at h
  split at h
  · cases h; exact hx
  · cases h
    rw [numCells_filterRowsDF] at hx
    exact maskFilter_mem hx
  · cases h

theorem boundStep_own {β γ : Type} {d : β → Option ℚ → Bool}
    {acc acc' : DFrame × List γ} {cb : String × β}
    (h : boundStep d acc cb = .ok acc') (v : ℚ)
    (hv : some v ∈ numCells acc'.1 cb.1) : d cb.2 (some v) = false := by
  unfold boundStep at h
  split at h
  · cases h
    rename_i hnone
    rw [numCells, hnone] at hv
    simp at hv
  · cases h
    rename_i vs hsome
    rw [numCells_filterRowsDF] at hv
    rw [numCells, hsome] at hv
    rw [maskFilter_map_self] at hv
    have := List.of_mem_filter hv
    simpa using this
  · cases h

theorem boundLoop_mono {β γ : Type} {d : β → Option ℚ → Bool} :
    ∀ {bs : List (String × β)} {acc : DFrame × List γ} {f' : DFrame} {l' : List γ},
      boundLoop d bs acc = .ok (f', l') → ∀ (c : String) (x : Option ℚ),
        x ∈ numCells f' c → x ∈ numCells acc.1 c := by
  intro bs
  induction bs with
  | nil =>
    intro acc f' l' h c x hx
    cases h
    exact hx
  | cons b t ih =>
    intro acc f' l' h c x hx
    rw [boundLoop] at h
    cases hstep : boundStep d acc b with
    | error e => rw [hstep] at h; cases h
    | ok acc₁ =>
      rw [hstep] at h
      exact boundStep_mono hstep c x (ih h c x hx)

theorem boundLoop_sound {β γ : Type} {d : β → Option ℚ → Bool} :
    ∀ {bs : List (String × β)} {acc : DFrame × List γ} {f' : DFrame} {l' : List γ},
      boundLoop d bs acc = .ok (f', l') → ∀ b ∈ bs, ∀ v : ℚ,
        some v ∈ numCells f' b.1 → d b.2 (some v) = false := by
  intro bs
  induction bs with
  | nil =>
    intro acc f' l' _ b hb
    simp at hb
  | cons b0 t ih =>
    intro acc f' l' h b hb v hv
    rw [boundLoop] at h
    cases hstep : boundStep d acc b0 with
    | error e => rw [hstep] at h; cases h
    | ok acc₁ =>
      rw [hstep] at h
      rcases List.mem_cons.mp hb with hb0 | hbt
      · subst hb0
        exact boundStep_own hstep v (boundLoop_mono h b.1 (some v) hv)
      · exact ih h b hbt v hv

/-- The executable squared test is exactly the source comparison against the
bounds mean - k*std and mean + k*std, for a nonnegative multiplier. -/
theorem dropStat_iff (k m var v : ℚ) (hk : 0 ≤ k) (hvar : 0 ≤ var) :
    dropStat k (m, var) (some v) = true ↔
      ((v : ℝ) < realLower k m var ∨ realUpper k m var < (v : ℝ)) := by
  have hvr : (0 : ℝ) ≤ (var : ℚ) := by exact_mod_cast hvar
  have hkr : (0 : ℝ) ≤ (k : ℚ) := by exact_mod_cast hk
  set s : ℝ := Real.sqrt ((var : ℚ) : ℝ) with hs
  have hs0 : 0 ≤ s := Real.sqrt_nonneg _
  have hs2 : s ^ 2 = ((var : ℚ) : ℝ) := Real.sq_sqrt hvr
  have hq : dropStat k (m, var) (some v) = true ↔ k ^ 2 * var < (v - m) ^ 2 := by
    simp [dropStat]
  rw [hq]
  have hcast : (k ^ 2 * var < (v - m) ^ 2) ↔
      (((k : ℝ)) ^ 2 * ((var : ℚ) : ℝ) < (((v : ℚ) : ℝ) - ((m : ℚ) : ℝ)) ^ 2) := by
    rw [← Rat.cast_lt (K := ℝ)]
    push_cast
    constructor <;> intro h <;> linarith
  rw [hcast, ← hs2]
  unfold realLower realUpper
  rw [← hs]
  constructor
  · intro h
    by_contra hcon
    push_neg at hcon
    obtain ⟨h1, h2⟩ := hcon
    nlinarith [sq_nonneg (((v : ℚ) : ℝ) - (m : ℚ)), mul_nonneg hkr hs0]
  · intro h
    rcases h with h | h
    · nlinarith [mul_nonneg hkr hs0]
    · nlinarith [mul_nonneg hkr hs0]

theorem colVarQ_nonneg (vs : List (Option ℚ)) : 0 ≤ colVarQ vs := by
  unfold colVarQ
  set xs := dropNone vs with hxs
  have hnum : 0 ≤ (xs.map (fun x => (x - colMeanQ vs) ^ 2)).sum := by
    apply List.sum_nonneg
    intro q hq
    rcases List.mem_map.mp hq with ⟨x, _, rfl⟩
    exact sq_nonneg _
  rcases Nat.lt_or_ge xs.length 2 with hlen | hlen
  · interval_cases h : xs.length
    · have hx0 : xs = [] := List.length_eq_zero.mp h
      simp [hx0]
    · rw [show (((1 : ℕ) : ℚ) - 1) = 0 by norm_num, div_zero]
  · have hden : (0 : ℚ) < (xs.length : ℚ) - 1 := by
      have : (2 : ℚ) ≤ (xs.length : ℚ) := by exact_mod_cast hlen
      linarith
    exact div_nonneg hnum (le_of_lt hden)

theorem trainStats_var_nonneg {f : DFrame} {c : String} {m var : ℚ}
    (h : (c, m, var) ∈ trainStats f) : 0 ≤ var := by
  unfold trainStats at h
  rcases List.mem_filterMap.mp h with ⟨p, _, hp⟩
  rcases p with ⟨n, cd⟩
  cases cd <;> simp_all
  rcases hp with ⟨-, -, hv⟩
  rw [← hv]
  exact colVarQ_nonneg _

/-- C4: after remove_outliers runs in training mode (multiplier 8, as perform_eda
invokes it) on any feature table and completes, every remaining row satisfies
lower_bound ≤ value ≤ upper_bound simultaneously for every bounded column still
present, where the bounds are the source values mean - 8*std and mean + 8*std
computed on the pre-removal table. -/
theorem C4_train_postcondition {γ : Type} (f : DFrame) (l : List γ)
    (bs : List (String × ℚ × ℚ)) (f' : DFrame) (l' : List γ)
    (c : String) (m var v : ℚ)
    (hok : remove_outliers_train 8 f l = .ok (bs, f', l'))
    (hmem : (c, m, var) ∈ bs)
    (hv : some v ∈ numCells f' c) :
    realLower 8 m var ≤ (v : ℝ) ∧ (v : ℝ) ≤ realUpper 8 m var := by
  have key : bs = trainStats f ∧ boundLoop (dropStat 8) (trainStats f) (f, l) = .ok (f', l') := by
    unfold remove_outliers_train at hok
    by_cases he : (trainStats f).isEmpty = true
    · rw [if_pos he] at hok; cases hok
    · rw [if_neg he] at hok
      cases hres : boundLoop (dropStat 8) (trainStats f) (f, l) with
      | error e => rw [hres] at hok; cases hok
      | ok p =>
        rcases p with ⟨f0, l0⟩
        rw [hres] at hok
        cases hok
        exact ⟨rfl, rfl⟩
  obtain ⟨hbs, hloop⟩ := key
  subst hbs
  have hdrop : dropStat 8 (m, var) (some v) = false :=
    boundLoop_sound hloop (c, m, var) hmem v hv
  have hvar : 0 ≤ var := trainStats_var_nonneg hmem
  have hnot : ¬ ((v : ℝ) < realLower 8 m var ∨ realUpper 8 m var < (v : ℝ)) := by
    rw [← dropStat_iff 8 m var v (by norm_num) hvar]
    simp [hdrop]
  push_neg at hnot
  exact hnot

/-- C4 witness: the post-condition instantiated on a concrete two-row table with
one numeric column of constant value 5 (mean 5, sample variance 0). -/
theorem C4_train_postcondition_witness :
    realLower 8 5 0 ≤ ((5 : ℚ) : ℝ) ∧ ((5 : ℚ) : ℝ) ≤ realUpper 8 5 0 :=
  C4_train_postcondition [("a", .nums [some 5, some 5])] [(0 : ℤ), 0]
    [("a", 5, 0)] [("a", .nums [some 5, some 5])] [(0 : ℤ), 0] "a" 5 0 5
    (by
      have hstats : trainStats [("a", ColData.nums [some 5, some 5])] = [("a", 5, 0)] := by
        simp only [trainStats, List.filterMap_cons, List.filterMap_nil]
        norm_num [colMeanQ, colVarQ, dropNone]
      unfold remove_outliers_train
      rw [hstats]
      norm_num [boundLoop, boundStep, lookupStr, dropStat, filterRowsDF,
        ColData.filterRows, maskFilter])
    (by norm_num)
    (by norm_num [numCells, lookupStr])

/-- Concrete column of Scenario C. -/
def exCol5 : List (Option ℚ) := [some 1, some 2, some 3, some 4, some 100]

/-- One-column feature table holding Scenario C's values. -/
def exT5 : DFrame := [("value", .nums exCol5)]

/-- Labels accompanying exT5. -/
def exL5 : List ℤ := [0, 1, 2, 3, 4]

/-- C5 counterexample: for the column [1,2,3,4,100] the bounds remove_outliers
computes in training mode are mean ± 8·std with the pandas sample (ddof = 1)
standard deviation √1902.5 ≈ 43.62, giving ≈ [-326.95, 370.95] — not
approximately [-288, 332] as the claim states (which used std ≈ 38.8): both ends
are off by more than 10, far beyond any reading of "approximately". -/
theorem C5_counterexample :
    10 < |realLower 8 22 (3805 / 2) - (-288)| ∧ 10 < |realUpper 8 22 (3805 / 2) - 332| := by
  have hsl : Real.sqrt (((3805 / 2 : ℚ) : ℝ)) < 349 / 8 := by
    rw [Real.sqrt_lt' (by norm_num)]
    push_cast
    norm_num
  have hsg : (3489 / 80 : ℝ) < Real.sqrt (((3805 / 2 : ℚ) : ℝ)) := by
    rw [Real.lt_sqrt (by norm_num)]
    push_cast
    norm_num
  have hlow : realLower 8 22 (3805 / 2) < -3269 / 10 := by
    unfold realLower
    push_cast
    nlinarith
  have hup : (3709 / 10 : ℝ) < realUpper 8 22 (3805 / 2) := by
    unfold realUpper
    push_cast
    nlinarith
  constructor
  · rw [abs_of_neg (by linarith)]
    linarith
  · rw [abs_of_pos (by linarith)]
    linarith

/-- C5 (amended): in training mode remove_outliers computes, for every numeric
column, the bound pair (mean - 8·std, mean + 8·std) with default multiplier
k = 8 (dropStat decides exactly the comparison against realLower/realUpper);
for the column [1,2,3,4,100] the mean is 22 and the pandas ddof = 1 variance is
1902.5, so std = √1902.5 ≈ 43.62 and the bound is approximately
[-326.95, 370.95] (not [-288, 332]); no row is removed (100 is well within the
bound), demonstrating the deliberately loose default multiplier. -/
theorem C5_train_stats :
    (∀ (k m var v : ℚ), 0 ≤ k → 0 ≤ var →
      (dropStat k (m, var) (some v) = true ↔
        ((v : ℝ) < realLower k m var ∨ realUpper k m var < (v : ℝ)))) ∧
    colMeanQ exCol5 = 22 ∧ colVarQ exCol5 = 3805 / 2 ∧
    (-327 < realLower 8 22 (3805 / 2) ∧ realLower 8 22 (3805 / 2) < -3269 / 10) ∧
    ((3709 / 10 : ℝ) < realUpper 8 22 (3805 / 2) ∧ realUpper 8 22 (3805 / 2) < 371) ∧
    remove_outliers_train 8 exT5 exL5 = .ok ([("value", 22, 3805 / 2)], exT5, exL5) := by
  have hsl : Real.sqrt (((3805 / 2 : ℚ) : ℝ)) < 349 / 8 := by
    rw [Real.sqrt_lt' (by norm_num)]
    push_cast
    norm_num
  have hsg : (3489 / 80 : ℝ) < Real.sqrt (((3805 / 2 : ℚ) : ℝ)) := by
    rw [Real.lt_sqrt (by norm_num)]
    push_cast
    norm_num
  refine ⟨fun k m var v hk hvar => dropStat_iff k m var v hk hvar, ?_, ?_, ⟨?_, ?_⟩, ⟨?_, ?_⟩, ?_⟩
  · norm_num [colMeanQ, dropNone, exCol5]
  · norm_num [colVarQ, colMeanQ, dropNone, exCol5]
  · unfold realLower
    push_cast
    nlinarith
  · unfold realLower
    push_cast
    nlinarith
  · unfold realUpper
    push_cast
    nlinarith
  · unfold realUpper
    push_cast
    nlinarith
  · have hstats : trainStats exT5 = [("value", 22, 3805 / 2)] := by
      simp only [exT5, exCol5, trainStats, List.filterMap_cons, List.filterMap_nil]
      norm_num [colMeanQ, colVarQ, dropNone]
    unfold remove_outliers_train
    rw [hstats]
    show (if ([("value", 22, 3805 / 2)] : List (String × ℚ × ℚ)).isEmpty = true then _ else _) = _
    norm_num [exT5, exL5, exCol5, boundLoop, boundStep, lookupStr, dropStat,
      filterRowsDF, ColData.filterRows, maskFilter]

/-- C5 witness: the bound characterisation of the amended theorem instantiated at
the concrete Scenario C statistics. -/
theorem C5_train_stats_witness :
    dropStat 8 (22, 3805 / 2) (some 1) = true ↔
      (((1 : ℚ) : ℝ) < realLower 8 22 (3805 / 2) ∨
        realUpper 8 22 (3805 / 2) < ((1 : ℚ) : ℝ)) :=
  C5_train_stats.1 8 22 (3805 / 2) 1 (by norm_num) (by norm_num)

theorem map_eq_self {α : Type} {l : List α} {g : α → α} (h : ∀ a ∈ l, g a = a) :
    l.map g = l := by
  induction l with
  | nil => rfl
  | cons a t ih =>
    rw [List.map_cons, h a (List.mem_cons_self a t),
      ih (fun x hx => h x (List.mem_cons_of_mem a hx))]

theorem ColData.filterRows_all_true {keep : List Bool} {cd : ColData}
    (hall : ∀ b ∈ keep, b = true) (hlen : cd.length ≤ keep.length) :
    cd.filterRows keep = cd := by
  cases cd <;> simp only [ColData.filterRows, ColData.length] at hlen ⊢ <;>
    rw [maskFilter_all_true keep _ hall hlen]

theorem ColData.filterRows_emptied (m : List Bool) (cd : ColData) :
    cd.emptied.filterRows m = cd.emptied := by
  cases cd <;> simp [ColData.emptied, ColData.filterRows, maskFilter_nil]

theorem ColData.length_one_nums {vs : List (Option ℚ)}
    (h : (ColData.nums vs).length = 1) : ∃ o, vs = [o] := by
  simp only [ColData.length] at h
  exact List.length_eq_one.mp h

theorem lookupStr_length {f : DFrame} {c : String} {cd : ColData} {n : ℕ}
    (hn : ∀ p ∈ f, p.2.length = n) (h : lookupStr f c = some cd) : cd.length = n :=
  hn (c, cd) (lookupStr_mem h)

theorem boundColOk_lookup {f : DFrame} {c : String} (hok : boundColOk f c = true) :
    lookupStr f c = none ∨ ∃ vs, lookupStr f c = some (.nums vs) := by
  unfold boundColOk at hok
  cases h : lookupStr f c with
  | none => exact Or.inl rfl
  | some cd =>
    cases cd with
    | nums vs => exact Or.inr ⟨vs, rfl⟩
    | strs vs => rw [h] at hok; cases hok
    | bools vs => rw [h] at hok; cases hok
    | durs vs => rw [h] at hok; cases hok
    | times vs => rw [h] at hok; cases hok

theorem filterRowsDF_emptied (m : List Bool) (f : DFrame) :
    filterRowsDF m (emptiedDF f) = emptiedDF f := by
  unfold filterRowsDF emptiedDF
  rw [List.map_map]
  apply List.map_congr_left
  intro p _
  simp only [Function.comp]
  rw [ColData.filterRows_emptied]

theorem boundStep_emptied {β γ : Type} (d : β → Option ℚ → Bool) (f : DFrame)
    (b : String × β) (hok : boundColOk f b.1 = true) :
    boundStep d (emptiedDF f, ([] : List γ)) b = .ok (emptiedDF f, []) := by
  have hlook : lookupStr (emptiedDF f) b.1 = (lookupStr f b.1).map ColData.emptied :=
    lookupStr_map_snd ColData.emptied f b.1
  rcases boundColOk_lookup hok with h | ⟨vs, h⟩
  · have hlook2 : lookupStr (emptiedDF f) b.1 = none := by rw [hlook, h]; rfl
    simp only [boundStep, hlook2]
  · have hlook2 : lookupStr (emptiedDF f) b.1 = some (.nums []) := by rw [hlook, h]; rfl
    simp only [boundStep, hlook2, List.map_nil]
    rw [show maskFilter [] ([] : List γ) = [] from rfl, filterRowsDF_emptied]

theorem boundStep_cases {β γ : Type} (d : β → Option ℚ → Bool) (f : DFrame)
    (l : List γ) (b : String × β)
    (hn : ∀ p ∈ f, p.2.length = 1) (hl : l.length = 1)
    (hok : boundColOk f b.1 = true) :
    boundStep d (f, l) b = .ok (f, l) ∨ boundStep d (f, l) b = .ok (emptiedDF f, []) := by
  rcases boundColOk_lookup hok with h | ⟨vs, h⟩
  · left
    unfold boundStep
    rw [h]
  · obtain ⟨o, ho⟩ := ColData.length_one_nums (lookupStr_length hn h)
    subst ho
    obtain ⟨x, hx⟩ := List.length_eq_one.mp hl
    cases hd : d b.2 o with
    | false =>
      left
      unfold boundStep
      rw [h]
      show Except.ok (filterRowsDF _ f, maskFilter _ l) = _
      rw [List.map_singleton, hd]
      have hf : filterRowsDF [!false] f = f := by
        unfold filterRowsDF
        apply map_eq_self
        intro p hp
        rw [ColData.filterRows_all_true (by simp) (by rw [hn p hp]; simp)]
      have hlab : maskFilter [!false] l = l :=
        maskFilter_all_true _ _ (by simp) (by rw [hl]; simp)
      rw [hf, hlab]
    | true =>
      right
      unfold boundStep
      rw [h]
      show Except.ok (filterRowsDF _ f, maskFilter _ l) = _
      rw [List.map_singleton, hd]
      have hf : filterRowsDF [!true] f = emptiedDF f := by
        unfold filterRowsDF emptiedDF
        apply List.map_congr_left
        intro p hp
        have h1 : p.2.length = 1 := hn p hp
        cases hcd : p.2 <;> rw [hcd] at h1 <;>
          simp only [ColData.length] at h1 <;>
          obtain ⟨y, hy⟩ := List.length_eq_one.mp h1 <;>
          simp [ColData.filterRows, ColData.emptied, hy, maskFilter]
      have hlab : maskFilter [!true] l = [] := by
        rw [hx]
        rfl
      rw [hf, hlab]

theorem boundStep_drops {β γ : Type} (d : β → Option ℚ → Bool) (f : DFrame)
    (l : List γ) (c : String) (b2 : β) (v : ℚ)
    (hn : ∀ p ∈ f, p.2.length = 1) (hl : l.length = 1)
    (hcol : lookupStr f c = some (.nums [some v]))
    (hdrop : d b2 (some v) = true) :
    boundStep d (f, l) (c, b2) = .ok (emptiedDF f, []) := by
  obtain ⟨x, hx⟩ := List.length_eq_one.mp hl
  unfold boundStep
  rw [hcol]
  show Except.ok (filterRowsDF _ f, maskFilter _ l) = _
  rw [List.map_singleton, hdrop]
  have hf : filterRowsDF [!true] f = emptiedDF f := by
    unfold filterRowsDF emptiedDF
    apply List.map_congr_left
    intro p hp
    have h1 : p.2.length = 1 := hn p hp
    cases hcd : p.2 <;> rw [hcd] at h1 <;>
      simp only [ColData.length] at h1 <;>
      obtain ⟨y, hy⟩ := List.length_eq_one.mp h1 <;>
      simp [ColData.filterRows, ColData.emptied, hy, maskFilter]
  have hlab : maskFilter [!true] l = [] := by
    rw [hx]
    rfl
  rw [hf, hlab]

theorem boundLoop_emptied {β γ : Type} (d : β → Option ℚ → Bool) (f : DFrame) :
    ∀ (bs : List (String × β)), (∀ b ∈ bs, boundColOk f b.1 = true) →
      boundLoop d bs (emptiedDF f, ([] : List γ)) = .ok (emptiedDF f, []) := by
  intro bs
  induction bs with
  | nil => intro _; rfl
  | cons b t ih =>
    intro hty
    rw [boundLoop, boundStep_emptied d f b (hty b (List.mem_cons_self b t))]
    exact ih (fun x hx => hty x (List.mem_cons_of_mem b hx))

theorem boundLoop_inv {β γ : Type} (d : β → Option ℚ → Bool) (f : DFrame) (l : List γ)
    (hn : ∀ p ∈ f, p.2.length = 1) (hl : l.length = 1) :
    ∀ (bs : List (String × β)), (∀ b ∈ bs, boundColOk f b.1 = true) →
      boundLoop d bs (f, l) = .ok (f, l) ∨
        boundLoop d bs (f, l) = .ok (emptiedDF f, []) := by
  intro bs
  induction bs with
  | nil => intro _; left; rfl
  | cons b t ih =>
    intro hty
    have htyt : ∀ x ∈ t, boundColOk f x.1 = true :=
      fun x hx => hty x (List.mem_cons_of_mem b hx)
    rcases boundStep_cases d f l b hn hl (hty b (List.mem_cons_self b t)) with h | h
    · rw [boundLoop, h]
      exact ih htyt
    · rw [boundLoop, h]
      right
      exact boundLoop_emptied d f t htyt

theorem boundLoop_append {β γ : Type} (d : β → Option ℚ → Bool) :
    ∀ (s u : List (String × β)) (acc : DFrame × List γ),
      boundLoop d (s ++ u) acc =
        match boundLoop d s acc with
        | .ok a => boundLoop d u a
        | .error e => .error e := by
  intro s
  induction s with
  | nil => intro u acc; rfl
  | cons b t ih =>
    intro u acc
    rw [List.cons_append, boundLoop, boundLoop]
    cases hstep : boundStep d acc b with
    | error e => rfl
    | ok acc' => exact ih u acc'

/-- The serving drop condition is satisfied by a value strictly outside the
persisted interval. -/
theorem dropBound_true {lo hi v : ℚ} (hv : v < lo ∨ hi < v) :
    dropBound (lo, hi) (some v) = true := by
  unfold dropBound
  rcases hv with h | h <;> simp [h]

/-- C2: in a serving-mode run with persisted outlier bounds, when some bounded
column of the single-record table holds a value strictly outside its
[lower, upper] interval, remove_outliers silently drops the record: it returns
features with every row removed (the column structure survives empty) and an
empty label vector, raising no error.  The persisted bounds are assumed to be
well-typed for the record (no bound names a non-numeric present column), which
is what training-produced bounds guarantee. -/
theorem C2_serving_drop {γ : Type} (st : Store) (f : DFrame) (l : List γ)
    (bs : List (String × ℚ × ℚ)) (c : String) (lo hi v : ℚ)
    (hout : st.outliers = some bs)
    (hb : (c, lo, hi) ∈ bs)
    (hcol : lookupStr f c = some (.nums [some v]))
    (hv : v < lo ∨ hi < v)
    (hn : ∀ p ∈ f, p.2.length = 1)
    (hl : l.length = 1)
    (hty : ∀ b ∈ bs, boundColOk f b.1 = true) :
    remove_outliers_serve st f l = .ok (emptiedDF f, []) := by
  simp only [remove_outliers_serve, hout]
  rw [if_neg (by
    intro he
    rw [List.isEmpty_iff.mp he] at hb
    simp at hb)]
  obtain ⟨s, t, hsplit⟩ := List.mem_iff_append.mp hb
  subst hsplit
  have htys : ∀ b ∈ s, boundColOk f b.1 = true :=
    fun x hx => hty x (List.mem_append.mpr (Or.inl hx))
  have htyt : ∀ b ∈ t, boundColOk f b.1 = true :=
    fun x hx => hty x (List.mem_append.mpr (Or.inr (List.mem_cons_of_mem _ hx)))
  rw [boundLoop_append]
  rcases boundLoop_inv dropBound f l hn hl s htys with h | h
  · have hstep := boundStep_drops dropBound f l c (lo, hi) v hn hl hcol (dropBound_true hv)
    simp only [h, boundLoop, hstep]
    exact boundLoop_emptied dropBound f t htyt
  · have hstep := boundStep_emptied (γ := γ) dropBound f ⟨c, lo, hi⟩
      (hty (c, lo, hi) (List.mem_append.mpr (Or.inr (List.mem_cons_self _ _))))
    simp only [h, boundLoop, hstep]
    exact boundLoop_emptied dropBound f t htyt

/-- C2 witness: a concrete one-row, one-column serving table whose value 99 lies
above the persisted upper bound 10; the record silently disappears. -/
theorem C2_serving_drop_witness :
    remove_outliers_serve
      { scaler := none, outliers := some [("a", 0, 10)], model := none }
      [("a", .nums [some 99])] [(0 : ℤ)] =
      .ok (emptiedDF [("a", .nums [some 99])], []) :=
  C2_serving_drop _ _ _ [("a", 0, 10)] "a" 0 10 99 rfl
    (by norm_num)
    (by norm_num [lookupStr])
    (by norm_num)
    (by
      intro p hp
      simp only [List.mem_singleton] at hp
      rw [hp]
      rfl)
    rfl
    (by
      intro b hb
      simp only [List.mem_singleton] at hb
      rw [hb]
      rfl)

/-- Numeric columns of the frame with their cells, in order
(df.select_dtypes(include=[np.number])). -/
def numericCols (f : DFrame) : List (String × List (Option ℚ)) :=
  f.filterMap (fun p =>
    match p.2 with
    | .nums vs => some (p.1, vs)
    | _ => none)

/-- Non-numeric columns, in order. -/
def nonNumericCols (f : DFrame) : DFrame :=
  f.filter (fun p =>
    match p.2 with
    | .nums _ => false
    | _ => true)

/-- Mean of a plain value list. -/
def meanL (xs : List ℚ) : ℚ := xs.sum / xs.length

/-- Population variance, ddof = 0 (scipy.stats.zscore and sklearn StandardScaler). -/
def popVarQ (xs : List ℚ) : ℚ := (xs.map (fun x => (x - meanL xs) ^ 2)).sum / xs.length

/-- Whether any cell of the column is missing (df.isnull() per column; boolean,
timedelta and datetime columns hold no NaN in this model). -/
def colHasNone : ColData → Bool
  | .nums vs => vs.any (fun o => o.isNone)
  | .strs vs => vs.any (fun o => o.isNone)
  | _ => false

/-- Number of columns with any missing value: df.isnull().any().sum(); the
source only compares it against 0, i.e. tests whether any missing value exists. -/
def missingCount (f : DFrame) : ℕ := (f.filter (fun p => colHasNone p.2)).length

/-- Row i of one numeric column triggers the z-score outlier test |z| > 3
(scipy zscore, ddof = 0).  A column containing NaN propagates NaN through mean
and std, so every z in it is NaN and the comparison is false; on a NaN-free
column, |x - m| / s > 3 is decided by the equivalent squared test
(x - m)^2 > 9·var (s = √var ≥ 0; when var = 0 every value equals m and both
sides are 0, matching NaN-z behaviour of a constant column). -/
def colZOutlierAt (vs : List (Option ℚ)) (i : ℕ) : Bool :=
  if vs.any (fun o => o.isNone) then false
  else
    match vs[i]? with
    | some (some v) =>
        decide (9 * popVarQ (dropNone vs) < (v - meanL (dropNone vs)) ^ 2)
    | _ => false

/-- Number of rows of the frame (length of its first column). -/
def nrowsDF : DFrame → ℕ
  | [] => 0
  | p :: _ => p.2.length

/-- Row i has some z-score of magnitude above 3 across the numeric columns
(np.any(np.abs(zscore(numeric_df)) > 3, axis=1)). -/
def rowIsOutlier (f : DFrame) (i : ℕ) : Bool :=
  (numericCols f).any (fun p => colZOutlierAt p.2 i)

/-- Fraction of outlier rows (np.mean over the row flags). -/
def outlierFraction (f : DFrame) : ℚ :=
  (((List.range (nrowsDF f)).filter (rowIsOutlier f)).length : ℚ) / (nrowsDF f)

/-- scaler_recommendation (lines 184-220): a dict with keys "svm", "xgboost",
"cnn" in insertion order; RobustScaler for svm when the outlier proportion
exceeds 0.05 or any missing values exist, StandardScaler otherwise; always
MinMaxScaler for xgboost and "MinMaxScaler + Sigmoid" for cnn. -/
def scaler_recommendation (df : DFrame) : List (String × String) :=
  [("svm",
      if 1 / 20 < outlierFraction df ∨ 0 < missingCount df then "RobustScaler"
      else "StandardScaler"),
    ("xgboost", "MinMaxScaler"),
    ("cnn", "MinMaxScaler + Sigmoid")]

/-- Minimum of a value list (np.nanmin; 0 as degenerate default for an empty
column, on which sklearn would refuse to fit). -/
def colMin : List ℚ → ℚ
  | [] => 0
  | x :: t => t.foldl min x

/-- Maximum of a value list (np.nanmax). -/
def colMax : List ℚ → ℚ
  | [] => 0
  | x :: t => t.foldl max x

/-- sklearn _handle_zeros_in_scale: a zero scale is replaced by 1. -/
def handleZero (x : ℚ) : ℚ := if x = 0 then 1 else x

/-- numpy linear-interpolation percentile at probability p on the sorted values:
index h = (n-1)·p, linearly interpolated between the neighbouring order
statistics (np.nanpercentile default interpolation). -/
def quantileQ (xs : List ℚ) (p : ℚ) : ℚ :=
  match List.insertionSort (fun a b => a ≤ b) xs with
  | [] => 0
  | s0 :: srest =>
    ((s0 :: srest).getD (Int.floor (((s0 :: srest).length - 1 : ℚ) * p)).toNat 0) +
      ((((s0 :: srest).length - 1 : ℚ) * p) -
          (Int.floor (((s0 :: srest).length - 1 : ℚ) * p) : ℤ)) *
        (((s0 :: srest).getD ((Int.floor (((s0 :: srest).length - 1 : ℚ) * p)).toNat + 1)
            ((s0 :: srest).getD (Int.floor (((s0 :: srest).length - 1 : ℚ) * p)).toNat 0)) -
          ((s0 :: srest).getD (Int.floor (((s0 :: srest).length - 1 : ℚ) * p)).toNat 0))

/-- Fitted MinMaxScaler per-column parameters: subtract the minimum, divide by
the (zero-handled) range. -/
def minmaxP (vs : List (Option ℚ)) : ℚ × ℚ :=
  (colMin (dropNone vs), handleZero (colMax (dropNone vs) - colMin (dropNone vs)))

/-- Fitted RobustScaler per-column parameters: subtract the median, divide by
the (zero-handled) interquartile range. -/
def robustP (vs : List (Option ℚ)) : ℚ × ℚ :=
  (quantileQ (dropNone vs) (1 / 2),
    handleZero (quantileQ (dropNone vs) (3 / 4) - quantileQ (dropNone vs) (1 / 4)))

/-- Fitted StandardScaler per-column parameters: subtract the mean, divide by
the population standard deviation (zero std handled as 1). -/
noncomputable def standardP (vs : List (Option ℚ)) : ℝ × ℝ :=
  ((meanL (dropNone vs) : ℚ),
    if popVarQ (dropNone vs) = 0 then 1 else Real.sqrt ((popVarQ (dropNone vs) : ℚ) : ℝ))

/-- Rational scaler parameters as real ones. -/
def qP (p : ℚ × ℚ) : ℝ × ℝ := ((p.1 : ℚ), (p.2 : ℚ))

/-- The sigmoid squashing y = 1/(1 + e^(-x)) the cnn recommendation applies
elementwise after min-max scaling. -/
noncomputable def sigmoid (x : ℝ) : ℝ := 1 / (1 + Real.exp (-x))

/-- A column of reals, as produced by a fitted transform. -/
inductive ColDataR
  | nums (vs : List (Option ℝ))
  | strs (vs : List (Option String))
  | bools (vs : List Bool)
  | durs (vs : List ℚ)
  | times (vs : List ℤ)

/-- A frame whose numeric data are reals (the scaled output). -/
abbrev DFrameR := List (String × ColDataR)

/-- Cast an unscaled column into the real-valued world. -/
noncomputable def ColData.castR : ColData → ColDataR
  | .nums vs => .nums (vs.map (Option.map (fun q => ((q : ℚ) : ℝ))))
  | .strs vs => .strs vs
  | .bools vs => .bools vs
  | .durs vs => .durs vs
  | .times vs => .times vs

/-- Cast a whole frame. -/
noncomputable def castDF (f : DFrame) : DFrameR := f.map (fun p => (p.1, p.2.castR))

/-- Apply fitted per-column (center, scale) parameters positionally to the
numeric columns: x maps to (x - center)/scale, missing cells stay missing
(sklearn transform). -/
noncomputable def applyParams (ps : List (ℝ × ℝ))
    (ncols : List (String × List (Option ℚ))) : DFrameR :=
  (ps.zip ncols).map (fun pc =>
    (pc.2.1, ColDataR.nums (pc.2.2.map (Option.map (fun v => (((v : ℚ) : ℝ) - pc.1.1) / pc.1.2)))))

/-- Combine the scaled numeric columns with the untouched non-numeric columns
(lines 248-253: scaled_df holds the numeric columns, then the non-numeric ones
are appended by name). -/
noncomputable def mergeScaled (scaled : DFrameR) (rest : DFrame) : DFrameR :=
  scaled ++ castDF rest

/-- Apply the sigmoid elementwise to the scaled numeric data. -/
noncomputable def sigmoidDF (g : DFrameR) : DFrameR :=
  g.map (fun p =>
    (p.1, match p.2 with
      | .nums vs => .nums (vs.map (Option.map sigmoid))
      | cd => cd))

/-- Record the fitted scaler on the instance and persist it (self.scaler = ...;
save_borders()). -/
def withScaler (st : Store) (ps : List (ℝ × ℝ)) : Store := { st with scaler := some ps }

/-- apply_scaling, training branch (lines 226-243): fit the requested transform
on the numeric columns, persist it, and merge the scaled numeric data back with
the non-numeric columns; an unsupported scaler name raises ValueError. -/
noncomputable def apply_scaling_train (st : Store) (df : DFrame) (scalerType : String) :
    Except Err (Store × DFrameR) :=
  if scalerType = "StandardScaler" then
    .ok (withScaler st ((numericCols df).map (fun p => standardP p.2)),
      mergeScaled (applyParams ((numericCols df).map (fun p => standardP p.2)) (numericCols df))
        (nonNumericCols df))
  else if scalerType = "MinMaxScaler" then
    .ok (withScaler st ((numericCols df).map (fun p => qP (minmaxP p.2))),
      mergeScaled (applyParams ((numericCols df).map (fun p => qP (minmaxP p.2))) (numericCols df))
        (nonNumericCols df))
  else if scalerType = "RobustScaler" then
    .ok (withScaler st ((numericCols df).map (fun p => qP (robustP p.2))),
      mergeScaled (applyParams ((numericCols df).map (fun p => qP (robustP p.2))) (numericCols df))
        (nonNumericCols df))
  else if scalerType = "MinMaxScaler + Sigmoid" then
    .ok (withScaler st ((numericCols df).map (fun p => qP (minmaxP p.2))),
      mergeScaled
        (sigmoidDF (applyParams ((numericCols df).map (fun p => qP (minmaxP p.2)))
          (numericCols df)))
        (nonNumericCols df))
  else .error (.valueError ("Unsupported scaler type: " ++ scalerType))

/-- apply_scaling, serving branch (lines 244-246): load_borders, then
self.scaler.transform(numeric_df).  With no persisted scaler self.scaler is
still None and the attribute access raises AttributeError; sklearn transform
refuses a feature-count mismatch.  The requested scaler_type is ignored
entirely. -/
noncomputable def apply_scaling_serve (st : Store) (df : DFrame) (scalerType : String) :
    Except Err (Store × DFrameR) :=
  match st.scaler with
  | none => .error (.attributeError "NoneType object has no attribute transform")
  | some ps =>
    if ps.length = (numericCols df).length then
      .ok (st, mergeScaled (applyParams ps (numericCols df)) (nonNumericCols df))
    else .error (.valueError "X has a different number of features than the fitted scaler")

/-- apply_scaling (lines 222-255): the source branches on one_line_processing,
training fits and saves, serving loads and replays. -/
noncomputable def apply_scaling (st : Store) (oneLine : Bool) (df : DFrame)
    (scalerType : String) : Except Err (Store × DFrameR) :=
  if oneLine then apply_scaling_serve st df scalerType
  else apply_scaling_train st df scalerType

/-- A result is what the specification calls a ConfigurationError exactly when
it is one of the deliberately raised ValueErrors (unsupported scaler, missing
label column, missing datasets, missing artifact checks all raise ValueError). -/
def isConfigurationError {α : Type} : Except Err α → Bool
  | .error (.valueError _) => true
  | _ => false

/-- C3 counterexample: invoking the Scaler Applier in serving mode with no
persisted scaler does not raise a ConfigurationError (one of the deliberate
ValueError raises): load_borders leaves self.scaler as None and
self.scaler.transform(numeric_df) fails with AttributeError instead. -/
theorem C3_counterexample :
    apply_scaling { scaler := none, outliers := none, model := none } true
        [("x", .nums [some 1])] "StandardScaler" =
      .error (.attributeError "NoneType object has no attribute transform") ∧
    isConfigurationError
        (apply_scaling { scaler := none, outliers := none, model := none } true
          [("x", .nums [some 1])] "StandardScaler") = false :=
  ⟨rfl, rfl⟩

/-- C3 (amended): for every serving-mode invocation of apply_scaling
(one_line_processing true) with no scaler artifact persisted, the call fails —
it does not silently skip scaling — but the failure is an AttributeError from
calling transform on the absent (None) scaler, not an explicitly raised
ConfigurationError/ValueError like the analogous outlier-threshold and
decision-tree-pipeline checks. -/
theorem C3_missing_scaler (st : Store) (df : DFrame) (t : String)
    (h : st.scaler = none) :
    apply_scaling st true df t =
        .error (.attributeError "NoneType object has no attribute transform") ∧
    isConfigurationError (apply_scaling st true df t) = false := by
  have hmain : apply_scaling st true df t =
      .error (.attributeError "NoneType object has no attribute transform") := by
    unfold apply_scaling apply_scaling_serve
    rw [if_pos rfl, h]
  exact ⟨hmain, by rw [hmain]; rfl⟩

/-- C3 witness: the amended theorem at a concrete empty store. -/
theorem C3_missing_scaler_witness :
    apply_scaling { scaler := none, outliers := none, model := none } true
        [("x", .nums [some 2])] "MinMaxScaler" =
      .error (.attributeError "NoneType object has no attribute transform") :=
  (C3_missing_scaler { scaler := none, outliers := none, model := none }
    [("x", .nums [some 2])] "MinMaxScaler" rfl).1

/-- The scaler names apply_scaling accepts in training mode. -/
def supportedScalers : List String :=
  ["StandardScaler", "MinMaxScaler", "RobustScaler", "MinMaxScaler + Sigmoid"]

/-- C9: scaler_recommendation returns RobustScaler for key "svm" exactly when
the fraction of rows with some z-score magnitude above 3 exceeds 0.05 or any
missing values exist, and StandardScaler for "svm" otherwise; the
recommendation for "xgboost" is always MinMaxScaler; and an unsupported scaler
name passed to apply_scaling in training mode raises the configuration
ValueError. -/
theorem C9_scaler_recommendation (df : DFrame) (st : Store) :
    (lookupStr (scaler_recommendation df) "svm" = some "RobustScaler" ↔
      (1 / 20 < outlierFraction df ∨ 0 < missingCount df)) ∧
    (lookupStr (scaler_recommendation df) "svm" = some "StandardScaler" ↔
      ¬ (1 / 20 < outlierFraction df ∨ 0 < missingCount df)) ∧
    lookupStr (scaler_recommendation df) "xgboost" = some "MinMaxScaler" ∧
    (∀ t : String, t ∉ supportedScalers →
      apply_scaling st false df t = .error (.valueError ("Unsupported scaler type: " ++ t))) := by
  have hsvm : lookupStr (scaler_recommendation df) "svm" =
      some (if 1 / 20 < outlierFraction df ∨ 0 < missingCount df then "RobustScaler"
        else "StandardScaler") := by
    simp [scaler_recommendation, lookupStr]
  refine ⟨?_, ?_, ?_, ?_⟩
  · rw [hsvm]
    by_cases hc : 1 / 20 < outlierFraction df ∨ 0 < missingCount df
    · rw [if_pos hc]
      exact iff_of_true rfl hc
    · rw [if_neg hc]
      exact iff_of_false (by simp +decide) hc
  · rw [hsvm]
    by_cases hc : 1 / 20 < outlierFraction df ∨ 0 < missingCount df
    · rw [if_pos hc]
      exact iff_of_false (by simp +decide) (fun hcon => hcon hc)
    · rw [if_neg hc]
      exact iff_of_true rfl hc
  · simp +decide [scaler_recommendation, lookupStr]
  · intro t ht
    simp only [supportedScalers, List.mem_cons, List.mem_singleton] at ht
    push_neg at ht
    obtain ⟨h1, h2, h3, h4⟩ := ht
    unfold apply_scaling apply_scaling_train
    rw [if_neg (by simp), if_neg (by simpa using h1), if_neg (by simpa using h2),
      if_neg (by simpa using h3), if_neg (by simpa using h4)]

/-- C9 witness: the unsupported-scaler clause of the theorem at a concrete
frame, store and scaler name. -/
theorem C9_scaler_recommendation_witness :
    apply_scaling { scaler := none, outliers := none, model := none } false
        [("x", .nums [some 1])] "QuantileScaler" =
      .error (.valueError ("Unsupported scaler type: " ++ "QuantileScaler")) :=
  (C9_scaler_recommendation [("x", .nums [some 1])]
      { scaler := none, outliers := none, model := none }).2.2.2
    "QuantileScaler" (by decide)

theorem exp_one_half_bounds :
    (16487 / 10000 : ℝ) < Real.exp (1 / 2) ∧ Real.exp (1 / 2) < 16488 / 10000 := by
  have hsq : Real.exp (1 / 2) * Real.exp (1 / 2) = Real.exp 1 := by
    rw [← Real.exp_add]
    norm_num
  have hpos : (0 : ℝ) < Real.exp (1 / 2) := Real.exp_pos _
  constructor
  · have h1 : (16487 / 10000 : ℝ) ^ 2 < Real.exp (1 / 2) ^ 2 := by
      rw [pow_two (Real.exp (1 / 2)), hsq]
      nlinarith [Real.exp_one_gt_d9]
    exact lt_of_pow_lt_pow_left₀ 2 (le_of_lt hpos) h1
  · have h1 : Real.exp (1 / 2) ^ 2 < (16488 / 10000 : ℝ) ^ 2 := by
      rw [pow_two (Real.exp (1 / 2)), hsq]
      nlinarith [Real.exp_one_lt_d9]
    exact lt_of_pow_lt_pow_left₀ 2 (by norm_num) h1

theorem sigmoid_of_exp (y : ℝ) : sigmoid y = Real.exp y / (Real.exp y + 1) := by
  unfold sigmoid
  rw [Real.exp_neg]
  have hpos : (0 : ℝ) < Real.exp y := Real.exp_pos y
  rw [show 1 + (Real.exp y)⁻¹ = (Real.exp y + 1) / Real.exp y by field_simp]
  rw [one_div_div]

/-- C8: training-mode apply_scaling with scaler type "MinMaxScaler + Sigmoid"
first min-max scales each numeric column and then applies y = 1/(1 + e^(-x))
elementwise; for a numeric column with values [0, 10, 20] the min-max output is
[0, 1/2, 1] and the final result [sigmoid 0, sigmoid (1/2), sigmoid 1] is within
0.001 of [0.5, 0.622, 0.731]. -/
theorem C8_minmax_sigmoid :
    (∀ (st : Store) (df : DFrame),
      apply_scaling st false df "MinMaxScaler + Sigmoid" =
        .ok (withScaler st ((numericCols df).map (fun p => qP (minmaxP p.2))),
          mergeScaled
            (sigmoidDF (applyParams ((numericCols df).map (fun p => qP (minmaxP p.2)))
              (numericCols df)))
            (nonNumericCols df))) ∧
    (∀ (st : Store),
      apply_scaling st false [("x", .nums [some 0, some 10, some 20])]
          "MinMaxScaler + Sigmoid" =
        .ok (withScaler st [((0 : ℝ), (20 : ℝ))],
          [("x", ColDataR.nums [some (sigmoid 0), some (sigmoid (1 / 2)), some (sigmoid 1)])])) ∧
    |sigmoid 0 - 5 / 10| ≤ 1 / 1000 ∧
    |sigmoid (1 / 2) - 622 / 1000| ≤ 1 / 1000 ∧
    |sigmoid 1 - 731 / 1000| ≤ 1 / 1000 := by
  have hgen : ∀ (st : Store) (df : DFrame),
      apply_scaling st false df "MinMaxScaler + Sigmoid" =
        .ok (withScaler st ((numericCols df).map (fun p => qP (minmaxP p.2))),
          mergeScaled
            (sigmoidDF (applyParams ((numericCols df).map (fun p => qP (minmaxP p.2)))
              (numericCols df)))
            (nonNumericCols df)) := by
    intro st df
    unfold apply_scaling apply_scaling_train
    rw [if_neg (by simp)]
    rw [if_neg (by simp +decide), if_neg (by simp +decide), if_neg (by simp +decide),
      if_pos rfl]
  refine ⟨hgen, ?_, ?_, ?_, ?_⟩
  · intro st
    rw [hgen st [("x", .nums [some 0, some 10, some 20])]]
    have hnc : numericCols [("x", ColData.nums [some 0, some 10, some 20])] =
        [("x", [some 0, some 10, some 20])] := by
      simp [numericCols]
    have hnn : nonNumericCols [("x", ColData.nums [some 0, some 10, some 20])] = [] := by
      simp [nonNumericCols]
    rw [hnc, hnn]
    have hmm : minmaxP [some (0 : ℚ), some 10, some 20] = (0, 20) := by
      norm_num [minmaxP, dropNone, colMin, colMax, handleZero]
    rw [List.map_cons, List.map_nil, hmm]
    norm_num [qP, applyParams, sigmoidDF, mergeScaled, castDF, List.zip]
  · rw [show sigmoid 0 = 1 / 2 by unfold sigmoid; rw [neg_zero, Real.exp_zero]; norm_num]
    norm_num
  · rw [sigmoid_of_exp]
    obtain ⟨hF1, hF2⟩ := exp_one_half_bounds
    have hFpos : (0 : ℝ) < Real.exp (1 / 2) := Real.exp_pos _
    rw [abs_le]
    constructor
    · have : (621 / 1000 : ℝ) ≤ Real.exp (1 / 2) / (Real.exp (1 / 2) + 1) := by
        rw [le_div_iff₀ (by positivity)]
        nlinarith
      linarith
    · have : Real.exp (1 / 2) / (Real.exp (1 / 2) + 1) ≤ (623 / 1000 : ℝ) := by
        rw [div_le_iff₀ (by positivity)]
        nlinarith
      linarith
  · rw [sigmoid_of_exp]
    have hE1 := Real.exp_one_gt_d9
    have hE2 := Real.exp_one_lt_d9
    have hEpos : (0 : ℝ) < Real.exp 1 := Real.exp_pos _
    rw [abs_le]
    constructor
    · have : (730 / 1000 : ℝ) ≤ Real.exp 1 / (Real.exp 1 + 1) := by
        rw [le_div_iff₀ (by positivity)]
        nlinarith
      linarith
    · have : Real.exp 1 / (Real.exp 1 + 1) ≤ (732 / 1000 : ℝ) := by
        rw [div_le_iff₀ (by positivity)]
        nlinarith
      linarith

/-- The fixed categorical-feature tuple of the Categorical Probability Encoder
(perform_eda line 378). -/
def categorical_features : List String :=
  ["geo_continent_hash", "geo_countries_hash", "rdap_registrar_name_hash",
    "tls_root_authority_hash", "tls_leaf_authority_hash", "lex_tld_hash"]

/-- A single dict value becomes a one-row pandas column
(pd.DataFrame([input_data])). -/
def CellV.toCol : CellV → ColData
  | .q v => .nums [some v]
  | .s v => .strs [some v]
  | .b v => .bools [v]

/-- The single-record DataFrame, columns in dict insertion order. -/
def recordToDF (record : List (String × CellV)) : DFrame :=
  record.map (fun p => (p.1, p.2.toCol))

/-- First-row cell of a named column, fed to the loaded decision-tree pipeline
(the OneHotEncoder maps unknown or degenerate categories to an all-zero
indicator, so a missing cell is passed as a degenerate value). -/
def cell0 (f : DFrame) (c : String) : CellV :=
  match lookupStr f c with
  | some (.nums (some v :: _)) => .q v
  | some (.strs (some s :: _)) => .s s
  | some (.bools (b :: _)) => .b b
  | _ => .q 0

/-- The Categorical Probability Encoder in serving form (perform_eda lines
377-440, one_line_processing branch): it runs only outside the binary and
multiclass policies; load_model, then `if self.model:` predicts the class-1
probability of the record's categorical tuple and stores it as the new column
dtree_prob, else raises ValueError; selecting the categorical columns raises
KeyError when one is absent from the record. -/
def dtreeStep (st : Store) (dga : String) (df : DFrame) : Except Err DFrame :=
  if dga = "binary" ∨ dga = "multiclass" then .ok df
  else
    match st.model with
    | none => .error (.valueError "Pipeline not found. Please train the pipeline first.")
    | some mdl =>
      if categorical_features.all (fun c => (lookupStr df c).isSome) then
        .ok (df ++ [("dtree_prob", .nums [some (mdl (categorical_features.map (cell0 df)))])])
      else .error .keyError

/-- The raw label of the single record, as the string the class-map loops call
startswith / split on; a non-string label raises AttributeError there. -/
def labelString : ColData → Except Err String
  | .strs (some s :: _) => .ok s
  | _ => .error (.attributeError "startswith on a non-string label")

/-- Class-map construction dispatched on the dga flag (perform_eda lines
442-477). -/
def classMapFor (dga : String) (dgaMap : List (ℤ × String)) (uls : List String) :
    Except Err (List (String × ℤ)) :=
  if dga = "binary" then class_map_binary uls
  else if dga = "multiclass" then class_map_multiclass dgaMap uls
  else .ok (class_map_generic uls)

/-- Lines 484-488: timedelta columns to total seconds, datetime columns to
epoch seconds via astype(int64) // 10^9 (floor division on nanoseconds). -/
def tempToNum (f : DFrame) : DFrame :=
  f.map (fun p =>
    (p.1, match p.2 with
      | .durs vs => .nums (vs.map some)
      | .times vs => .nums (vs.map (fun ns => some ((ns.fdiv 1000000000 : ℤ) : ℚ)))
      | cd => cd))

/-- Lines 491-493: boolean columns become 0/1 floats. -/
def boolToFloat (f : DFrame) : DFrame :=
  f.map (fun p =>
    (p.1, match p.2 with
      | .bools vs => .nums (vs.map (fun b => some (if b then (1 : ℚ) else 0)))
      | cd => cd))

/-- DataFrame.drop(name, axis=1): every column with that name is removed. -/
def dropColumn (f : DFrame) (c : String) : DFrame :=
  f.filter (fun p => decide (p.1 ≠ c))

/-- Line 495: features.drop(features.columns[0], axis=1) — the first remaining
column (the residual identifier) is dropped by name; an empty frame would
raise IndexError on columns[0]. -/
def dropFirstColumn : DFrame → Except Err DFrame
  | [] => .error .indexError
  | (n, cd) :: rest => .ok (((n, cd) :: rest).filter (fun p => decide (p.1 ≠ n)))

/-- Line 498: features.fillna(-1) — missing numeric cells become -1 (an object
column would be filled with a mixed-type -1; none survives to this point in
practice). -/
def fillNaNeg1 (f : DFrame) : DFrame :=
  f.map (fun p =>
    (p.1, match p.2 with
      | .nums vs => .nums (vs.map (fun o => some (o.getD (-1))))
      | cd => cd))

/-- Lines 503-508: when scaling is requested, compute the recommendation dict
from the current features, pick the entry for model.lower() (StandardScaler by
default), and call apply_scaling — whose serving branch replays the persisted
transform and ignores the requested type entirely. -/
noncomputable def scalingStep (st : Store) (applyFlag : Bool) (model : String)
    (features : DFrame) : Except Err DFrameR :=
  if applyFlag then
    match apply_scaling_serve st features
        ((lookupStr (scaler_recommendation features) model.toLower).getD "StandardScaler") with
    | .ok (_, scaled) => .ok scaled
    | .error e => .error e
  else .ok (castDF features)

/-- perform_eda in serving mode (one_line_processing = True, lines 318-518):
combined_df = pd.DataFrame([input_data]) (shuffling a one-row frame and
resetting its index is the identity); extract the label column or raise
ValueError (lines 371-375); the categorical probability step for the generic
policy (lines 377-440); the class map from the distinct labels (lines 442-477);
encode the labels with sentinel -1 (line 479); drop the label column (line 480);
normalise temporal and boolean dtypes (lines 484-493); drop the first remaining
column (line 495); impute missing values to -1 (line 498); remove outliers with
the persisted thresholds (line 500); optionally scale (lines 503-507); return
the feature matrix, label vector, feature names and class map (line 518).  The
dga family map of the multiclass policy is an external collaborator passed as a
parameter. -/
noncomputable def perform_eda_serve (dgaMap : List (ℤ × String)) (st : Store)
    (record : List (String × CellV)) (dga : String) (model : String)
    (applyFlag : Bool) :
    Except Err (DFrameR × List ℤ × List String × List (String × ℤ)) :=
  match lookupStr (recordToDF record) "label" with
  | none => .error (.valueError "Label column not found in the dataframe.")
  | some labelCol =>
    match dtreeStep st dga (recordToDF record) with
    | .error e => .error e
    | .ok df1 =>
      match labelString labelCol with
      | .error e => .error e
      | .ok labelStr =>
        match classMapFor dga dgaMap [labelStr] with
        | .error e => .error e
        | .ok class_map =>
          match dropFirstColumn (boolToFloat (tempToNum (dropColumn df1 "label"))) with
          | .error e => .error e
          | .ok f2 =>
            match remove_outliers_serve st (fillNaNeg1 f2)
                (encodeLabels class_map [labelStr]) with
            | .error e => .error e
            | .ok (f3, labels2) =>
              match scalingStep st applyFlag model f3 with
              | .error e => .error e
              | .ok fr => .ok (fr, labels2, fr.map (fun p => p.1), class_map)

theorem lookupStr_none_of_not_mem {β : Type} :
    ∀ {f : List (String × β)} {c : String}, c ∉ f.map Prod.fst → lookupStr f c = none := by
  intro f
  induction f with
  | nil => intro c _; rfl
  | cons p t ih =>
    intro c h
    simp only [List.map_cons, List.mem_cons] at h
    push_neg at h
    simp only [lookupStr]
    rw [if_neg (fun hh => h.1 hh.symm)]
    exact ih h.2

/-- C1 counterexample: a serving-mode invocation whose input record carries no
label field does not complete with an empty class map — perform_eda raises
ValueError("Label column not found in the dataframe.") at lines 371-375, which
run before any mode-specific branch. -/
theorem C1_counterexample :
    perform_eda_serve [] { scaler := none, outliers := none, model := none }
        [("lex_len", .q 7)] "False" "svm" false =
      .error (.valueError "Label column not found in the dataframe.") := rfl

/-- C1 (amended): for every serving-mode invocation whose input record carries
no label field, the pipeline does not skip label mapping: it stops with the
ValueError raised for a missing label column (lines 371-375), under every
labeling policy, model name and scaling flag.  Serving inputs must therefore
carry a label field for perform_eda to complete. -/
theorem C1_missing_label (dgaMap : List (ℤ × String)) (st : Store)
    (record : List (String × CellV)) (dga model : String) (flag : Bool)
    (h : "label" ∉ record.map Prod.fst) :
    perform_eda_serve dgaMap st record dga model flag =
      .error (.valueError "Label column not found in the dataframe.") := by
  have hk : lookupStr (recordToDF record) "label" = none := by
    apply lookupStr_none_of_not_mem
    simpa [recordToDF, List.map_map, Function.comp] using h
  simp only [perform_eda_serve, hk]

/-- C1 witness: the amended theorem on a concrete label-free record. -/
theorem C1_missing_label_witness :
    perform_eda_serve [] { scaler := none, outliers := none, model := none }
        [("domain_name", .s "a.com"), ("lex_len", .q 3)] "binary" "svm" false =
      .error (.valueError "Label column not found in the dataframe.") :=
  C1_missing_label [] { scaler := none, outliers := none, model := none }
    [("domain_name", .s "a.com"), ("lex_len", .q 3)] "binary" "svm" false (by decide)

/-- The serving branch of apply_scaling never reads the requested scaler type:
replaying the persisted transform is unconditional. -/
theorem apply_scaling_serve_irrel (st : Store) (df : DFrame) (t₁ t₂ : String) :
    apply_scaling_serve st df t₁ = apply_scaling_serve st df t₂ := rfl

/-- The scaling step of the serving pipeline gives the same output for any two
target-model names: the recommendation looked up under model.lower() only picks
a scaler-type string that the serving branch then ignores. -/
theorem scalingStep_irrel (st : Store) (flag : Bool) (m₁ m₂ : String) (f : DFrame) :
    scalingStep st flag m₁ f = scalingStep st flag m₂ f := by
  cases flag
  · rfl
  · rfl

/-- C10: for every serving-mode run with scaling enabled, the entire output
(feature matrix, labels, feature names, class map) is identical for any two
values of the target-model argument: the scaler recommendation computed from
the single record is never used, and the persisted scaler transform is replayed
unconditionally.  The persisted-scaler hypothesis frames the claimed scenario;
the equality in fact never depends on the model name. -/
theorem C10_model_independence (dgaMap : List (ℤ × String)) (st : Store)
    (record : List (String × CellV)) (dga : String) (m₁ m₂ : String)
    (h : st.scaler.isSome = true) :
    perform_eda_serve dgaMap st record dga m₁ true =
      perform_eda_serve dgaMap st record dga m₂ true := by
  unfold perform_eda_serve
  simp only [scalingStep_irrel st true m₁ m₂]

/-- C10 witness: two serving runs of the same concrete record differing only in
the target model name ("svm" vs "cnn") produce equal outputs. -/
theorem C10_model_independence_witness :
    perform_eda_serve []
        { scaler := some [((0 : ℝ), (1 : ℝ))], outliers := some [("lex_len", 0, 10)],
          model := none }
        [("domain_name", .s "a.com"), ("label", .s "benign:x"), ("lex_len", .q 3)]
        "binary" "svm" true =
      perform_eda_serve []
        { scaler := some [((0 : ℝ), (1 : ℝ))], outliers := some [("lex_len", 0, 10)],
          model := none }
        [("domain_name", .s "a.com"), ("label", .s "benign:x"), ("lex_len", .q 3)]
        "binary" "cnn" true :=
  C10_model_independence []
    { scaler := some [((0 : ℝ), (1 : ℝ))], outliers := some [("lex_len", 0, 10)],
      model := none }
    [("domain_name", .s "a.com"), ("label", .s "benign:x"), ("lex_len", .q 3)]
    "binary" "svm" "cnn" rfl

end Preprocess
